import Mathlib

/-!
Verification of the gocui view compositor and event-dispatch engine
(`thermeon/gocui`): a shallow embedding of the `Gui` state, its view-stack
operations (`SetView`, `SetViewOnTop`, `DeleteView`, `ViewByPosition`,
`SetManager`), keybinding dispatch (`execKeybindings`), and the event
handling path (`handleEvent`, `onKey`, the resize step of `flush`),
together with theorems settling the specification's claims about them.

Machine integers (`int`, `rune`, key codes, attributes) are embedded as
`Int`/`Nat`; none of the embedded code paths can overflow in the
scenarios considered.  Go's `error` results become `Option Err` /
`Except Err`.  Keybinding handlers are Go callbacks; they are embedded
as numeric identifiers together with an environment `run : Nat → Option
Err` giving each handler's outcome, since no embedded claim depends on
a handler's mutation of the `Gui` — only on which handlers run, in what
order, and on the propagated error.
-/

/-- Color attribute (`Attribute` in the source, a termbox attribute word). -/
abbrev Attribute := Nat

/-- Errors returned by the embedded operations.  `unknownView` embeds the
sentinel `ErrUnknownView`; `invalidDimensions`/`invalidName` embed the
`errors.New` values built in `SetView`; `handlerFailure` and
`externalErr` stand for opaque application/terminal errors carried
around by the event loop. -/
inductive Err where
  | invalidDimensions : Err
  | invalidName : Err
  | unknownView : Err
  | handlerFailure : Nat → Err
  | externalErr : Nat → Err
deriving DecidableEq, Repr

/-- The per-view state the claims touch: name, bounds, cursor, the
invalidation flag and the four colors.  The `Viewer` interface is in the
sources (`src/viewer.go`); the concrete view implementation is not, so
the record is modelled from the spec's data model (§3 View): `name`,
`bounds (x0,y0,x1,y1)`, `cursor (cx,cy)`, a dirty/invalidate flag and
background/foreground plus selected colors.  Buffer, origin, title and
the editing flags play no role in the claims and are omitted. -/
structure View where
  name : String
  x0 : Int
  y0 : Int
  x1 : Int
  y1 : Int
  cx : Int
  cy : Int
  invalidated : Bool
  bgColor : Attribute
  fgColor : Attribute
  selBgColor : Attribute
  selFgColor : Attribute
deriving DecidableEq, Repr

/-- `GetBounds() (x0, y0, x1, y1 int)` of the `Viewer` interface
(`src/viewer.go:39`): returns the four bounds in this order. -/
def View.GetBounds (v : View) : Int × Int × Int × Int :=
  (v.x0, v.y0, v.x1, v.y1)

/-- `SetBounds(x0, y0, x1, y1 int)` of the `Viewer` interface
(`src/viewer.go:40`).  Modelled from the spec: the view implementation is
not in the sources; per §4.3 a `setView` on an existing name updates "its
bounds in place". -/
def View.SetBounds (v : View) (x0 y0 x1 y1 : Int) : View :=
  { v with x0 := x0, y0 := y0, x1 := x1, y1 := y1 }

/-- `Invalidate()` of the `Viewer` interface (`src/viewer.go:28`).
Modelled from the spec: §3 describes "a dirty/`invalidate` flag" that
forces a full re-wrap and redraw; the operation sets that flag. -/
def View.Invalidate (v : View) : View :=
  { v with invalidated := true }

/-- `SetCursor(x, y int)` of the `Viewer` interface (`src/viewer.go:16`).
Modelled from the spec: §4.6 says a mouse hit "set[s] its cursor there";
the implementation is not in the sources, so the model stores the given
coordinates unconditionally. -/
def View.SetCursor (v : View) (x y : Int) : View :=
  { v with cx := x, cy := y }

/-- `SetBgFgColor(bg, fg Attribute)` of the `Viewer` interface
(`src/viewer.go:41`).  Modelled from the spec: seeds the view's default
color pair (§4.3: a freshly created view is seeded "with the
Compositor's current default colors"). -/
def View.SetBgFgColor (v : View) (bg fg : Attribute) : View :=
  { v with bgColor := bg, fgColor := fg }

/-- `SetSelBgFgColor(bg, fg Attribute)` of the `Viewer` interface
(`src/viewer.go:42`).  Modelled from the spec, as for `SetBgFgColor`. -/
def View.SetSelBgFgColor (v : View) (bg fg : Attribute) : View :=
  { v with selBgColor := bg, selFgColor := fg }

/-- Modelled from the spec: the view constructor `newView` (called in
`SetView`, `src/unnamed/part_001:202`) is not in the sources.  Per §3 a
view is created with its name and bounds; cursor and origin start at the
origin and the dirty flag is set so the first frame draws it.  The
output-mode argument of the Go constructor has no bearing on any claim
and is dropped. -/
def newView (name : String) (x0 y0 x1 y1 : Int) : View :=
  { name := name, x0 := x0, y0 := y0, x1 := x1, y1 := y1,
    cx := 0, cy := 0, invalidated := true,
    bgColor := 0, fgColor := 0, selBgColor := 0, selFgColor := 0 }

/-- A keybinding (the `keybinding` struct is not in the sources; its
fields are fixed by their uses in `src/unnamed/part_001`: `viewName`,
`key`, `ch`, `mod`, `handler`).  The handler is an identifier
(`Option` because the code skips a `nil` handler,
`src/unnamed/part_001:695`); its outcome is supplied separately. -/
structure Keybinding where
  viewName : String
  key : Nat
  ch : Nat
  mod : Nat
  handler : Option Nat
deriving DecidableEq, Repr

/-- Modelled from the spec: `matchKeypress` (not in the sources).  §4.4: a
binding matches an event when "its (key-or-rune, modifier) equals the
event's"; the trigger is normalized to a `(key, ch)` pair with exactly
one meaningful component, so the pair is compared componentwise. -/
def Keybinding.matchKeypress (kb : Keybinding) (key ch md : Nat) : Bool :=
  kb.key == key && kb.ch == ch && kb.mod == md

/-- Modelled from the spec: `matchView` (not in the sources).  §4.4 / §3:
an empty view-scope "matches every view (including none-focused)"; a
non-empty scope matches only the view of that name.  The target view is
embedded by its name, `none` when no view is focused. -/
def Keybinding.matchView (kb : Keybinding) (v : Option String) : Bool :=
  kb.viewName == "" ||
    (match v with
     | some n => kb.viewName == n
     | none => false)

/-- Input events fed to `handleEvent` (the termbox `Event` restricted to
the fields the embedded code reads: type, key/rune/modifier, mouse
coordinates, error). -/
inductive Event where
  | key : Nat → Nat → Nat → Event
  | mouse : Int → Int → Nat → Nat → Nat → Event
  | resize : Event
  | err : Err → Event
deriving DecidableEq, Repr

/-- The `Gui` state (`src/unnamed/part_001:34-69`) restricted to the
fields the claims touch: the z-ordered view stack, the focused view, the
managers (embedded as identifiers: no claim invokes a layout callback),
the keybinding list, the cached terminal size, the four color fields and
the pending terminal-event queue (`tbEvents`; the channel is embedded as
a list, a send as an append).  `currentView` is a Go pointer; it is
embedded as the view value it referenced, which is faithful for the
claims here because none of them mutates a view while it is focused. -/
structure Gui where
  views : List View
  currentView : Option View
  managers : List Nat
  keybindings : List Keybinding
  maxX : Int
  maxY : Int
  BgColor : Attribute
  FgColor : Attribute
  SelBgColor : Attribute
  SelFgColor : Attribute
  tbEvents : List Event
deriving DecidableEq, Repr

/-- `View(name)` (`src/unnamed/part_001:240-247`): first view with the
given name, or the unknown-view miss (embedded as `none`).  The Go
method is called `View`; that name would shadow the `View` type inside
the `Gui` namespace, hence `ViewByName`. -/
def Gui.ViewByName (g : Gui) (name : String) : Option View :=
  g.views.find? (fun v => v.name == name)

/-- Updates the first view carrying the given name, leaving the rest of
the list unchanged — the list-level counterpart of the Go code mutating
the view found by `g.View(name)` through its pointer. -/
def updateFirst (name : String) (f : View → View) : List View → List View
  | [] => []
  | v :: vs => if v.name == name then f v :: vs else v :: updateFirst name f vs

/-- `SetView(name, x0, y0, x1, y1)` (`src/unnamed/part_001:188-207`):
rejects x0 ≥ x1 or y0 ≥ y1, then an empty name; updates and invalidates
an existing view of that name in place; otherwise creates a view seeded
with the Gui's colors, appends it and returns it with `ErrUnknownView`.
Returns the possibly updated state, the returned view and the error. -/
def Gui.SetView (g : Gui) (name : String) (x0 y0 x1 y1 : Int) :
    Gui × Option View × Option Err :=
  if x0 ≥ x1 ∨ y0 ≥ y1 then
    (g, none, some Err.invalidDimensions)
  else if name = "" then
    (g, none, some Err.invalidName)
  else
    match g.ViewByName name with
    | some v =>
        ({ g with views :=
             updateFirst name (fun w => (w.SetBounds x0 y0 x1 y1).Invalidate) g.views },
         some ((v.SetBounds x0 y0 x1 y1).Invalidate), none)
    | none =>
        let v := ((newView name x0 y0 x1 y1).SetBgFgColor g.BgColor g.FgColor).SetSelBgFgColor
          g.SelBgColor g.SelFgColor
        ({ g with views := g.views ++ [v] }, some v, some Err.unknownView)

/-- The loop body of `SetViewOnTop` (`src/unnamed/part_001:210-219`):
finds the first view with the given name, removes it and re-appends it
at the end (topmost), returning the new list and the view. -/
def setOnTopAux (name : String) : List View → Option (List View × View)
  | [] => none
  | v :: vs =>
      if v.name == name then some (vs ++ [v], v)
      else
        match setOnTopAux name vs with
        | some (l, w) => some (v :: l, w)
        | none => none

/-- `SetViewOnTop(name)` (`src/unnamed/part_001:210-219`). -/
def Gui.SetViewOnTop (g : Gui) (name : String) : Option (Gui × View) :=
  match setOnTopAux name g.views with
  | some (l, v) => some ({ g with views := l }, v)
  | none => none

/-- The loop body of `ViewByPosition` (`src/unnamed/part_001:253-259`):
the views are traversed in reverse (topmost first) and the first view
with `x > x0 && x < x1 && y > y0 && y < y1` is returned; the argument
list is already reversed. -/
def viewAtAux (x y : Int) : List View → Option View
  | [] => none
  | v :: vs =>
      if x > v.x0 && x < v.x1 && y > v.y0 && y < v.y1 then some v
      else viewAtAux x y vs

/-- `ViewByPosition(x, y)` (`src/unnamed/part_001:251-261`). -/
def Gui.ViewByPosition (g : Gui) (x y : Int) : Option View :=
  viewAtAux x y g.views.reverse

/-- The loop body of `DeleteView` (`src/unnamed/part_001:278-283`):
removes the first view with the given name; `none` when no view
matches. -/
def eraseFirst (name : String) : List View → Option (List View)
  | [] => none
  | v :: vs =>
      if v.name == name then some vs
      else (eraseFirst name vs).map (fun l => v :: l)

/-- `DeleteView(name)` (`src/unnamed/part_001:277-285`): removes the
first view with the given name, or fails with `ErrUnknownView`.  The
`currentView` field is not touched. -/
def Gui.DeleteView (g : Gui) (name : String) : Gui × Option Err :=
  match eraseFirst name g.views with
  | some vs => ({ g with views := vs }, none)
  | none => (g, some Err.unknownView)

/-- `CurrentView()` (`src/unnamed/part_001:300-302`). -/
def Gui.CurrentView (g : Gui) : Option View :=
  g.currentView

/-- `SetManager(managers...)` (`src/unnamed/part_001:392-399`): replaces
the manager list, clears the focused view, the view stack and all
keybindings, and sends a synthetic resize event to the event queue. -/
def Gui.SetManager (g : Gui) (managers : List Nat) : Gui :=
  { g with managers := managers, currentView := none, views := [],
           keybindings := [], tbEvents := g.tbEvents ++ [Event.resize] }

/-- The loop of `execKeybindings` (`src/unnamed/part_001:694-704`) with
the accumulated `matched` flag made explicit, instrumented with the list
of handler identifiers invoked, in invocation order.  A `nil` handler is
skipped; a matching binding's handler runs; a handler error makes the
function return `(false, err)` at once, exactly as the Go `return false,
err` does. -/
def execKBAux (run : Nat → Option Err) (v : Option String) (key ch md : Nat) :
    List Keybinding → Bool → List Nat × Bool × Option Err
  | [], m => ([], m, none)
  | kb :: rest, m =>
      match kb.handler with
      | none => execKBAux run v key ch md rest m
      | some h =>
          if kb.matchKeypress key ch md && kb.matchView v then
            match run h with
            | some e => ([h], false, some e)
            | none =>
                let r := execKBAux run v key ch md rest true
                (h :: r.1, r.2.1, r.2.2)
          else execKBAux run v key ch md rest m

/-- `execKeybindings(v, ev)` (`src/unnamed/part_001:692-706`): runs every
matching keybinding's handler in registration order; returns the
invocation trace (instrumentation), the `matched` flag and the error. -/
def Gui.execKeybindings (g : Gui) (run : Nat → Option Err) (v : Option String)
    (key ch md : Nat) : List Nat × Bool × Option Err :=
  execKBAux run v key ch md g.keybindings false

/-- `onKey(ev)` (`src/unnamed/part_001:659-688`).  Key events dispatch
scoped to the focused view; the editor fallback mutates only the view's
text buffer, which is outside the embedded state, so the embedded state
is unchanged on that path.  Mouse events hit-test the click, then —
reproducing the Go destructuring `x0, _, y0, _ := v.GetBounds()`
(`src/unnamed/part_001:678`), whose third component is the bounds' `x1` —
set the hit view's cursor to `(mx - x0 - 1, my - y0local - 1)` and
dispatch scoped to that view. -/
def Gui.onKey (g : Gui) (run : Nat → Option Err) (ev : Event) : Except Err Gui :=
  match ev with
  | Event.key k ch md =>
      let r := g.execKeybindings run (g.currentView.map View.name) k ch md
      match r.2.2 with
      | some e => Except.error e
      | none => Except.ok g
  | Event.mouse mx my k ch md =>
      match g.ViewByPosition mx my with
      | none => Except.ok g
      | some v =>
          let (x0, _, y0, _) := v.GetBounds
          let vs' := updateFirst v.name
            (fun w => w.SetCursor (mx - x0 - 1) (my - y0 - 1)) g.views
          let g' := { g with views := vs' }
          let r := g'.execKeybindings run (some v.name) k ch md
          match r.2.2 with
          | some e => Except.error e
          | none => Except.ok g'
  | _ => Except.ok g

/-- `handleEvent(ev)` (`src/unnamed/part_001:468-477`): key and mouse
events go to `onKey`; an error event returns the event's error; every
other event — resize included — falls into the `default` branch, which
returns `nil` and leaves the state untouched. -/
def Gui.handleEvent (g : Gui) (run : Nat → Option Err) (ev : Event) : Except Err Gui :=
  match ev with
  | Event.key k ch md => g.onKey run (Event.key k ch md)
  | Event.mouse mx my k ch md => g.onKey run (Event.mouse mx my k ch md)
  | Event.err e => Except.error e
  | Event.resize => Except.ok g

/-- The size-refresh step of `flush` (`src/unnamed/part_001:483-490`):
with `(w, h)` the terminal size reported by the surface, every view is
invalidated when the size differs from the cached one, and the cached
size is updated unconditionally.  The rest of `flush` (clearing, layout
callbacks, frame and buffer drawing) only drives the external surface. -/
def Gui.flushResize (g : Gui) (w h : Int) : Gui :=
  let g1 := if w ≠ g.maxX ∨ h ≠ g.maxY then
    { g with views := g.views.map View.Invalidate }
  else g
  { g1 with maxX := w, maxY := h }

/-- The per-event body of `MainLoop` (`src/unnamed/part_001:428-445`)
over a list of already-polled terminal events: each event goes through
`handleEvent`, whose error is returned at once and terminates the loop;
a surviving iteration runs the resize step of `flush` with the current
terminal size (held fixed at `(w, h)` here). -/
def mainLoopEvents (run : Nat → Option Err) (w h : Int) :
    Gui → List Event → Except Err Gui
  | g, [] => Except.ok g
  | g, ev :: evs =>
      match g.handleEvent run ev with
      | Except.error e => Except.error e
      | Except.ok g' => mainLoopEvents run w h (g'.flushResize w h) evs

/-- Specification-side predicate (§4.3): a point `(x, y)` is inside a
view when it "lies strictly between its bounds' edges", the frame edge
itself excluded. -/
def strictlyInside (v : View) (x y : Int) : Prop :=
  v.x0 < x ∧ x < v.x1 ∧ v.y0 < y ∧ y < v.y1

instance (v : View) (x y : Int) : Decidable (strictlyInside v x y) := by
  unfold strictlyInside; infer_instance

/-- Specification-side definition (§4.4): the handlers of the registered
bindings that match the event — non-nil handler, (key-or-rune, modifier)
equal to the event's, view-scope empty or equal to the target view's
name — in registration order. -/
def matchingHandlers (v : Option String) (key ch md : Nat)
    (kbs : List Keybinding) : List Nat :=
  (kbs.filter (fun kb =>
    kb.handler.isSome && kb.matchKeypress key ch md && kb.matchView v)).filterMap
    Keybinding.handler

/-- Specification-side definition (§4.4): run handlers in order until the
first failure; returns the handlers actually invoked and the first
error, if any. -/
def runUntilErr (run : Nat → Option Err) : List Nat → List Nat × Option Err
  | [] => ([], none)
  | h :: t =>
      match run h with
      | some e => ([h], some e)
      | none =>
          let r := runUntilErr run t
          (h :: r.1, r.2)

/-! ## Concrete states used by counterexamples and witnesses -/

/-- A view named "b" with bounds (10,5,30,15), as in the spec's mouse
scenario. -/
def viewB : View := newView "b" 10 5 30 15

/-- A `Gui` on an 80×24 terminal holding only `viewB`. -/
def guiB : Gui :=
  { views := [viewB], currentView := none, managers := [], keybindings := [],
    maxX := 80, maxY := 24, BgColor := 0, FgColor := 0, SelBgColor := 0,
    SelFgColor := 0, tbEvents := [] }

/-- A view whose dirty flag is clear, for observing (non-)invalidation. -/
def staleView : View := { newView "a" 0 0 10 5 with invalidated := false }

/-- A `Gui` on an 80×24 terminal holding only `staleView`. -/
def guiStale : Gui :=
  { views := [staleView], currentView := none, managers := [], keybindings := [],
    maxX := 80, maxY := 24, BgColor := 0, FgColor := 0, SelBgColor := 0,
    SelFgColor := 0, tbEvents := [] }

/-- A view named "a" with bounds (0,0,20,10); it overlaps `viewB`. -/
def viewA : View := newView "a" 0 0 20 10

/-- A `Gui` holding `viewB` below `viewA` (so "a" is topmost); the point
(12,7) is strictly inside both views' bounds. -/
def guiOverlap : Gui :=
  { views := [viewB, viewA], currentView := none, managers := [], keybindings := [],
    maxX := 80, maxY := 24, BgColor := 0, FgColor := 0, SelBgColor := 0,
    SelFgColor := 0, tbEvents := [] }

/-- A global (empty-scope) binding on rune `q` (Unicode 113) with no
modifier, attached to handler 0. -/
def kbGlobalQ : Keybinding :=
  { viewName := "", key := 0, ch := 113, mod := 0, handler := some 0 }

/-- A `Gui` whose only keybinding is `kbGlobalQ`. -/
def guiKB : Gui :=
  { views := [], currentView := none, managers := [], keybindings := [kbGlobalQ],
    maxX := 80, maxY := 24, BgColor := 0, FgColor := 0, SelBgColor := 0,
    SelFgColor := 0, tbEvents := [] }

/-- A `Gui` whose single view `viewA` is also the focused view. -/
def guiFocusA : Gui :=
  { views := [viewA], currentView := some viewA, managers := [], keybindings := [],
    maxX := 80, maxY := 24, BgColor := 0, FgColor := 0, SelBgColor := 0,
    SelFgColor := 0, tbEvents := [] }

/-! ## C1 — mouse click cursor placement -/

/-- C1: the claim says a mouse event at (mx,my) hitting a view with
bounds (x0,y0,x1,y1) sets that view's cursor to (mx-x0-1, my-y0-1), so a
click at (12,7) on bounds (10,5,30,15) yields cursor (1,1).  The code
(`src/unnamed/part_001:678`) destructures `x0, _, y0, _ := v.GetBounds()`,
binding its local `y0` to the THIRD component of the bounds — the
right edge x1 — so the click sets the cursor to (mx-x0-1, my-x1-1):
here (1, -24), while the claim's formula gives (1, 1). -/
theorem onKey_mouse_cursor_slip :
    Gui.handleEvent guiB (fun _ => none) (Event.mouse 12 7 0 0 0) =
      Except.ok { guiB with views := [{ viewB with cx := 1, cy := -24 }] } ∧
    ((12 : Int) - viewB.x0 - 1, (7 : Int) - viewB.y0 - 1) = ((1 : Int), (1 : Int)) := by
  exact ⟨rfl, by decide⟩

/-! ## C8 — SetManager resets the UI state -/

/-- C8: `SetManager` replaces the manager list wholesale, clears the
views sequence, the focused view and all keybindings, and appends a
synthetic resize event to the pending terminal-event queue. -/
theorem SetManager_resets (g : Gui) (ms : List Nat) :
    (g.SetManager ms).managers = ms ∧
    (g.SetManager ms).views = [] ∧
    (g.SetManager ms).currentView = none ∧
    (g.SetManager ms).keybindings = [] ∧
    (g.SetManager ms).tbEvents = g.tbEvents ++ [Event.resize] :=
  ⟨rfl, rfl, rfl, rfl, rfl⟩

/-! ## C3 — resize and error events -/

/-- C3 counterexample: `handleEvent` itself does nothing on a resize
event — here it returns the state unchanged, with its single view still
carrying a clear dirty flag and the cached width still 80 — refuting
the claim that `handleEvent` updates the cached dimensions and
invalidates every view on resize. -/
theorem handleEvent_resize_noop_cex :
    Gui.handleEvent guiStale (fun _ => none) Event.resize = Except.ok guiStale ∧
    guiStale.views.map View.invalidated = [false] ∧
    guiStale.maxX = 80 ∧ guiStale.maxY = 24 :=
  ⟨rfl, rfl, rfl, rfl⟩

/-- C3 amended: `handleEvent` leaves the state untouched on a resize
event (the event falls into the `default` branch); the resize handling
happens in the `flush` of the same loop iteration, which updates the
cached dimensions to the surface-reported size unconditionally and
invalidates every view exactly when that size differs from the cached
one.  An error event makes `handleEvent` return the event's error, and
the event loop terminates with that error at once. -/
theorem handleEvent_resize_flush_amended (g : Gui) (run : Nat → Option Err)
    (w h : Int) (e : Err) (evs : List Event) :
    g.handleEvent run Event.resize = Except.ok g ∧
    (g.flushResize w h).maxX = w ∧
    (g.flushResize w h).maxY = h ∧
    (g.flushResize w h).views =
      (if w ≠ g.maxX ∨ h ≠ g.maxY then g.views.map View.Invalidate else g.views) ∧
    g.handleEvent run (Event.err e) = Except.error e ∧
    mainLoopEvents run w h g (Event.err e :: evs) = Except.error e := by
  refine ⟨rfl, ?_, ?_, ?_, rfl, ?_⟩
  · simp [Gui.flushResize]
  · simp [Gui.flushResize]
  · simp only [Gui.flushResize]
    split <;> rfl
  · simp [mainLoopEvents, Gui.handleEvent]

/-! ## C9 — SetView error cases leave the state unchanged -/

/-- C9: when `SetView` rejects the call — invalid dimensions (x0 ≥ x1 or
y0 ≥ y1) or an empty name — the `Gui` state is returned unchanged (so
views, currentView and keybindings are exactly as before), no view is
returned, and an error is reported. -/
theorem SetView_error_preserves_state (g : Gui) (name : String)
    (x0 y0 x1 y1 : Int) (h : x0 ≥ x1 ∨ y0 ≥ y1 ∨ name = "") :
    (g.SetView name x0 y0 x1 y1).1 = g ∧
    (g.SetView name x0 y0 x1 y1).2.1 = none ∧
    (g.SetView name x0 y0 x1 y1).2.2.isSome = true := by
  by_cases hd : x0 ≥ x1 ∨ y0 ≥ y1
  · simp [Gui.SetView, hd]
  · have hn : name = "" := by tauto
    simp [Gui.SetView, hd, hn]

/-- Witness for C9: rejecting `SetView "x" 5 0 3 1` (x0 = 5 ≥ 3 = x1) on
the concrete state `guiB` leaves `guiB` unchanged. -/
theorem SetView_error_preserves_state_witness :
    ((5 : Int) ≥ 3 ∨ (0 : Int) ≥ 1 ∨ "x" = "") ∧
    ((Gui.SetView guiB "x" 5 0 3 1).1 = guiB ∧
     (Gui.SetView guiB "x" 5 0 3 1).2.1 = none ∧
     (Gui.SetView guiB "x" 5 0 3 1).2.2.isSome = true) :=
  ⟨by decide, SetView_error_preserves_state guiB "x" 5 0 3 1 (by decide)⟩

/-! ## C4 / C6 — SetView behavior -/

/-- `updateFirst` never changes the number of views. -/
theorem updateFirst_length (name : String) (f : View → View) (l : List View) :
    (updateFirst name f l).length = l.length := by
  induction l with
  | nil => rfl
  | cons v vs ih =>
      simp only [updateFirst]
      split <;> simp [ih]

/-- C4: the full `SetView` contract.  Dimensions are rejected first
(x0 ≥ x1 or y0 ≥ y1), then an empty name; a call on an existing name
updates that view's bounds in place and invalidates it, returning it
with no error; a call on a fresh name appends a view seeded with the
Gui's current default and selection colors as the topmost (last) element
and returns it together with the distinguished unknown-view signal. -/
theorem SetView_contract (g : Gui) (name : String) (x0 y0 x1 y1 : Int) :
    (x0 ≥ x1 ∨ y0 ≥ y1 →
      g.SetView name x0 y0 x1 y1 = (g, none, some Err.invalidDimensions)) ∧
    (x0 < x1 → y0 < y1 → name = "" →
      g.SetView name x0 y0 x1 y1 = (g, none, some Err.invalidName)) ∧
    (x0 < x1 → y0 < y1 → name ≠ "" → ∀ v, g.ViewByName name = some v →
      g.SetView name x0 y0 x1 y1 =
        ({ g with views :=
             updateFirst name (fun w => (w.SetBounds x0 y0 x1 y1).Invalidate) g.views },
         some ((v.SetBounds x0 y0 x1 y1).Invalidate), none) ∧
      ((v.SetBounds x0 y0 x1 y1).Invalidate).invalidated = true ∧
      ((v.SetBounds x0 y0 x1 y1).Invalidate).GetBounds = (x0, y0, x1, y1)) ∧
    (x0 < x1 → y0 < y1 → name ≠ "" → g.ViewByName name = none →
      g.SetView name x0 y0 x1 y1 =
        ({ g with views := g.views ++
             [((newView name x0 y0 x1 y1).SetBgFgColor g.BgColor g.FgColor).SetSelBgFgColor
                g.SelBgColor g.SelFgColor] },
         some (((newView name x0 y0 x1 y1).SetBgFgColor g.BgColor g.FgColor).SetSelBgFgColor
                g.SelBgColor g.SelFgColor),
         some Err.unknownView) ∧
      (((newView name x0 y0 x1 y1).SetBgFgColor g.BgColor g.FgColor).SetSelBgFgColor
          g.SelBgColor g.SelFgColor).name = name ∧
      (((newView name x0 y0 x1 y1).SetBgFgColor g.BgColor g.FgColor).SetSelBgFgColor
          g.SelBgColor g.SelFgColor).GetBounds = (x0, y0, x1, y1) ∧
      (((newView name x0 y0 x1 y1).SetBgFgColor g.BgColor g.FgColor).SetSelBgFgColor
          g.SelBgColor g.SelFgColor).bgColor = g.BgColor ∧
      (((newView name x0 y0 x1 y1).SetBgFgColor g.BgColor g.FgColor).SetSelBgFgColor
          g.SelBgColor g.SelFgColor).fgColor = g.FgColor ∧
      (((newView name x0 y0 x1 y1).SetBgFgColor g.BgColor g.FgColor).SetSelBgFgColor
          g.SelBgColor g.SelFgColor).selBgColor = g.SelBgColor ∧
      (((newView name x0 y0 x1 y1).SetBgFgColor g.BgColor g.FgColor).SetSelBgFgColor
          g.SelBgColor g.SelFgColor).selFgColor = g.SelFgColor ∧
      (g.SetView name x0 y0 x1 y1).1.views.getLast? =
        some (((newView name x0 y0 x1 y1).SetBgFgColor g.BgColor g.FgColor).SetSelBgFgColor
                g.SelBgColor g.SelFgColor)) := by
  refine ⟨?_, ?_, ?_, ?_⟩
  · intro hd
    simp [Gui.SetView, hd]
  · intro hx hy hn
    have hd : ¬(x0 ≥ x1 ∨ y0 ≥ y1) := by omega
    simp [Gui.SetView, hd, hn]
  · intro hx hy hn v hv
    have hd : ¬(x0 ≥ x1 ∨ y0 ≥ y1) := by omega
    refine ⟨?_, rfl, rfl⟩
    simp [Gui.SetView, hd, hn, hv]
  · intro hx hy hn hv
    have hd : ¬(x0 ≥ x1 ∨ y0 ≥ y1) := by omega
    refine ⟨?_, rfl, rfl, rfl, rfl, rfl, rfl, ?_⟩ <;>
      simp [Gui.SetView, hd, hn, hv]

/-- Witness for C4: on `guiB`, invalid dimensions and an empty name are
rejected; updating the existing "b" succeeds with no error; creating a
fresh "c" appends it and signals unknown-view. -/
theorem SetView_contract_witness :
    Gui.SetView guiB "z" 3 0 3 9 = (guiB, none, some Err.invalidDimensions) ∧
    Gui.SetView guiB "" 0 0 1 1 = (guiB, none, some Err.invalidName) ∧
    Gui.SetView guiB "b" 1 1 5 5 =
      ({ guiB with views :=
           updateFirst "b" (fun w => (w.SetBounds 1 1 5 5).Invalidate) guiB.views },
       some ((viewB.SetBounds 1 1 5 5).Invalidate), none) ∧
    (Gui.SetView guiB "c" 0 0 5 5).2.2 = some Err.unknownView ∧
    (Gui.SetView guiB "c" 0 0 5 5).1.views.getLast? =
      some (((newView "c" 0 0 5 5).SetBgFgColor guiB.BgColor guiB.FgColor).SetSelBgFgColor
              guiB.SelBgColor guiB.SelFgColor) :=
  ⟨(SetView_contract guiB "z" 3 0 3 9).1 (by decide),
   (SetView_contract guiB "" 0 0 1 1).2.1 (by decide) (by decide) rfl,
   (((SetView_contract guiB "b" 1 1 5 5).2.2.1 (by decide) (by decide) (by decide)
       viewB (by decide)).1),
   by rw [((SetView_contract guiB "c" 0 0 5 5).2.2.2 (by decide) (by decide) (by decide)
       (by decide)).1],
   (((SetView_contract guiB "c" 0 0 5 5).2.2.2 (by decide) (by decide) (by decide)
       (by decide)).2.2.2.2.2.2.2)⟩

/-- C6: calling `SetView` with the name of a view already in the views
sequence and valid bounds never changes the sequence's length; when the
name is nonempty (true of every view the API can create) the call
reports no error and only rewrites the named view in place via
`updateFirst`, so nothing is appended. -/
theorem SetView_existing_no_duplicate (g : Gui) (v : View) (name : String)
    (x0 y0 x1 y1 : Int) (hv : v ∈ g.views) (hn : v.name = name)
    (hx : x0 < x1) (hy : y0 < y1) :
    (g.SetView name x0 y0 x1 y1).1.views.length = g.views.length ∧
    (name ≠ "" →
      (g.SetView name x0 y0 x1 y1).2.2 = none ∧
      (g.SetView name x0 y0 x1 y1).1.views =
        updateFirst name (fun w => (w.SetBounds x0 y0 x1 y1).Invalidate) g.views) := by
  have hd : ¬(x0 ≥ x1 ∨ y0 ≥ y1) := by omega
  by_cases hne : name = ""
  · subst hne
    constructor
    · simp [Gui.SetView, hd]
    · intro h
      exact absurd rfl h
  · have hsome : (g.ViewByName name).isSome := by
      rw [Gui.ViewByName, List.find?_isSome]
      exact ⟨v, hv, by simp [hn]⟩
    obtain ⟨w, hw⟩ := Option.isSome_iff_exists.mp hsome
    refine ⟨?_, fun _ => ⟨?_, ?_⟩⟩ <;>
      simp [Gui.SetView, hd, hne, hw, updateFirst_length]

/-- Witness for C6: updating the existing view "b" of `guiB` keeps the
views sequence at length one and reports no error. -/
theorem SetView_existing_no_duplicate_witness :
    viewB ∈ guiB.views ∧ viewB.name = "b" ∧ (1 : Int) < 5 ∧
    (Gui.SetView guiB "b" 1 1 5 5).1.views.length = guiB.views.length ∧
    (Gui.SetView guiB "b" 1 1 5 5).2.2 = none :=
  ⟨by decide, rfl, by decide,
   (SetView_existing_no_duplicate guiB viewB "b" 1 1 5 5 (by decide) rfl
      (by decide) (by decide)).1,
   ((SetView_existing_no_duplicate guiB viewB "b" 1 1 5 5 (by decide) rfl
      (by decide) (by decide)).2 (by decide)).1⟩

/-! ## C10 — DeleteView and the focused view -/

/-- `eraseFirst` on a list containing a view with the target name
succeeds, removes exactly one element, and — when view names are unique —
the removed view is no longer a member of the result. -/
theorem eraseFirst_of_mem (name : String) (v : View) (l : List View)
    (hv : v ∈ l) (hn : v.name = name) :
    ∃ l', eraseFirst name l = some l' ∧ l'.length + 1 = l.length ∧
      ((l.map View.name).Nodup → v ∉ l') := by
  induction l with
  | nil => cases hv
  | cons x xs ih =>
      by_cases hx : x.name = name
      · refine ⟨xs, by simp [eraseFirst, hx], by simp, ?_⟩
        intro hnd hmem
        have hxn : x.name ∈ xs.map View.name :=
          List.mem_map.mpr ⟨v, hmem, by rw [hn, hx]⟩
        exact (List.nodup_cons.mp (by simpa using hnd)).1 hxn
      · have hvx : v ≠ x := fun h => hx (by rw [← h, hn])
        have hv' : v ∈ xs := by
          rcases List.mem_cons.mp hv with h | h
          · exact absurd h hvx
          · exact h
        obtain ⟨l', h1, h2, h3⟩ := ih hv'
        refine ⟨x :: l', ?_, ?_, ?_⟩
        · simp [eraseFirst, hx, h1]
        · simpa using h2
        · intro hnd hmem
          have hnd' : (xs.map View.name).Nodup :=
            (List.nodup_cons.mp (by simpa using hnd)).2
          rcases List.mem_cons.mp hmem with h | h
          · exact hvx h
          · exact h3 hnd' h

/-- C10: `DeleteView` removes exactly the first view named `name` from
the views sequence and never touches `currentView`: if the focused view
is named `name` (and names are unique, as the API guarantees), the
deletion succeeds, one view is removed, the deleted view is no longer in
the views sequence, and `CurrentView` still returns it. -/
theorem DeleteView_keeps_currentView (g : Gui) (name : String) (v : View)
    (hcv : g.currentView = some v) (hn : v.name = name) (hv : v ∈ g.views)
    (hnd : (g.views.map View.name).Nodup) :
    (g.DeleteView name).2 = none ∧
    (g.DeleteView name).1.CurrentView = some v ∧
    v ∉ (g.DeleteView name).1.views ∧
    (g.DeleteView name).1.views.length + 1 = g.views.length := by
  obtain ⟨l', h1, h2, h3⟩ := eraseFirst_of_mem name v g.views hv hn
  refine ⟨?_, ?_, ?_, ?_⟩ <;> simp [Gui.DeleteView, h1, Gui.CurrentView, hcv, h3 hnd, h2]

/-- Witness for C10: deleting "a" from `guiFocusA` (whose focused view
is the view named "a") empties the views sequence while `CurrentView`
still returns the deleted view. -/
theorem DeleteView_keeps_currentView_witness :
    guiFocusA.currentView = some viewA ∧ viewA ∈ guiFocusA.views ∧
    (guiFocusA.DeleteView "a").2 = none ∧
    (guiFocusA.DeleteView "a").1.CurrentView = some viewA ∧
    viewA ∉ (guiFocusA.DeleteView "a").1.views ∧
    (guiFocusA.DeleteView "a").1.views.length + 1 = guiFocusA.views.length :=
  ⟨rfl, by decide,
   (DeleteView_keeps_currentView guiFocusA "a" viewA rfl rfl (by decide) (by decide)).1,
   (DeleteView_keeps_currentView guiFocusA "a" viewA rfl rfl (by decide) (by decide)).2.1,
   (DeleteView_keeps_currentView guiFocusA "a" viewA rfl rfl (by decide) (by decide)).2.2.1,
   (DeleteView_keeps_currentView guiFocusA "a" viewA rfl rfl (by decide) (by decide)).2.2.2⟩

/-! ## C7 — hit-testing and z-order -/

/-- The reverse-traversal loop of `ViewByPosition` returns the first
strict containment in its argument list. -/
theorem viewAtAux_eq_find? (x y : Int) (l : List View) :
    viewAtAux x y l = l.find? (fun v => decide (strictlyInside v x y)) := by
  induction l with
  | nil => rfl
  | cons v vs ih =>
      by_cases h1 : v.x0 < x <;> by_cases h2 : x < v.x1 <;>
        by_cases h3 : v.y0 < y <;> by_cases h4 : y < v.y1 <;>
        simp [viewAtAux, List.find?_cons, strictlyInside, gt_iff_lt,
          h1, h2, h3, h4, ih]

/-- A successful `setOnTopAux` ends with the moved view as the last
element of the resulting sequence. -/
theorem setOnTopAux_shape (name : String) (l : List View) :
    ∀ l' w, setOnTopAux name l = some (l', w) → ∃ l1, l' = l1 ++ [w] := by
  induction l with
  | nil => intro l' w h; simp [setOnTopAux] at h
  | cons v vs ih =>
      intro l' w h
      simp only [setOnTopAux] at h
      split at h
      · obtain ⟨h1, h2⟩ := Prod.mk.injEq .. ▸ (Option.some.injEq .. ▸ h)
        exact ⟨vs, by rw [← h1, ← h2]⟩
      · split at h
        · next l2 w2 heq =>
            obtain ⟨h1, h2⟩ := Prod.mk.injEq .. ▸ (Option.some.injEq .. ▸ h)
            obtain ⟨l1, hl1⟩ := ih l2 w2 heq
            exact ⟨v :: l1, by rw [← h1, ← h2, hl1]; rfl⟩
        · cases h

/-- C7: `ViewByPosition` scans the views sequence from topmost (last) to
bottommost (first) and returns the first view strictly containing the
point (so a point on a frame edge is never a hit, and the miss —
`ErrUnknownView` in the code, `none` here — occurs exactly when no view
strictly contains the point); and after a successful `SetViewOnTop n`,
any point strictly inside view n's bounds — in particular one also
inside an overlapping view — resolves to view n. -/
theorem ViewByPosition_topmost (g : Gui) (x y : Int) :
    (g.ViewByPosition x y =
      g.views.reverse.find? (fun v => decide (strictlyInside v x y))) ∧
    (g.ViewByPosition x y = none ↔ ∀ v ∈ g.views, ¬ strictlyInside v x y) ∧
    (∀ v, g.ViewByPosition x y = some v → strictlyInside v x y) ∧
    (∀ name g' v, g.SetViewOnTop name = some (g', v) → strictlyInside v x y →
      g'.ViewByPosition x y = some v) := by
  have hfind : g.ViewByPosition x y =
      g.views.reverse.find? (fun v => decide (strictlyInside v x y)) :=
    viewAtAux_eq_find? x y g.views.reverse
  refine ⟨hfind, ?_, ?_, ?_⟩
  · rw [hfind, List.find?_eq_none]
    constructor
    · intro h v hv hs
      exact h v (List.mem_reverse.mpr hv) (decide_eq_true hs)
    · intro h v hv hs
      exact h v (List.mem_reverse.mp hv) (of_decide_eq_true hs)
  · intro v hv
    rw [hfind] at hv
    have hp := List.find?_some hv
    exact of_decide_eq_true (by simpa using hp)
  · intro name g' v hset hs
    simp only [Gui.SetViewOnTop] at hset
    split at hset
    · next l w heq =>
        injection hset with hpair
        injection hpair with hg hw
        subst hg
        subst hw
        obtain ⟨h1, h2, h3, h4⟩ := hs
        obtain ⟨l1, hl1⟩ := setOnTopAux_shape name g.views l _ heq
        show viewAtAux x y l.reverse = some _
        rw [hl1]
        simp only [List.reverse_append, List.reverse_cons, List.reverse_nil,
          List.nil_append, List.singleton_append]
        simp [viewAtAux, gt_iff_lt, h1, h2, h3, h4]
    · cases hset

/-- Witness for C7: in `guiOverlap` the point (12,7) lies strictly
inside both "a" and "b"; after `SetViewOnTop "b"` the hit-test at
(12,7) resolves to "b". -/
theorem ViewByPosition_topmost_witness :
    Gui.SetViewOnTop guiOverlap "b" =
      some ({ guiOverlap with views := [viewA, viewB] }, viewB) ∧
    strictlyInside viewB 12 7 ∧ strictlyInside viewA 12 7 ∧
    Gui.ViewByPosition { guiOverlap with views := [viewA, viewB] } 12 7 =
      some viewB :=
  ⟨by decide, by decide, by decide,
   (ViewByPosition_topmost guiOverlap 12 7).2.2.2 "b"
     { guiOverlap with views := [viewA, viewB] } viewB (by decide) (by decide)⟩

/-! ## C2 / C5 — keybinding dispatch -/

/-- The `execKeybindings` loop, run with any accumulated `matched` flag,
invokes exactly the matching handlers up to and including the first
failing one, propagates that first failure, and reports `matched = false`
whenever a handler failed. -/
theorem execKBAux_eq (run : Nat → Option Err) (v : Option String) (key ch md : Nat)
    (kbs : List Keybinding) (m : Bool) :
    execKBAux run v key ch md kbs m =
      ((runUntilErr run (matchingHandlers v key ch md kbs)).1,
       (match (runUntilErr run (matchingHandlers v key ch md kbs)).2 with
        | some _ => false
        | none => m || !(matchingHandlers v key ch md kbs).isEmpty),
       (runUntilErr run (matchingHandlers v key ch md kbs)).2) := by
  induction kbs generalizing m with
  | nil => simp [execKBAux, matchingHandlers, runUntilErr]
  | cons kb rest ih =>
      cases hh : kb.handler with
      | none =>
          simp [execKBAux, hh, matchingHandlers, List.filter_cons, ih]
      | some h =>
          by_cases hk : kb.matchKeypress key ch md = true <;>
            by_cases hv2 : kb.matchView v = true
          · cases hr : run h with
            | some e =>
                simp [execKBAux, hh, hk, hv2, matchingHandlers, List.filter_cons,
                  List.filterMap_cons, runUntilErr, hr]
            | none =>
                simp only [execKBAux, hh, hk, hv2, Bool.and_self, if_true,
                  Bool.and_true, hr, ih true, matchingHandlers, List.filter_cons,
                  List.filterMap_cons, runUntilErr, Option.isSome_some,
                  Bool.true_and, List.isEmpty_cons, Bool.not_false, Bool.or_true,
                  Bool.true_or]
          · simp [execKBAux, hh, hk, hv2, matchingHandlers, List.filter_cons, ih]
          · simp [execKBAux, hh, hk, hv2, matchingHandlers, List.filter_cons, ih]
          · simp [execKBAux, hh, hk, hv2, matchingHandlers, List.filter_cons, ih]

/-- There is a matching handler exactly when some registered binding has
a non-nil handler and matches the event and the target view's scope. -/
theorem matchingHandlers_ne_nil (v : Option String) (key ch md : Nat)
    (kbs : List Keybinding) :
    (!(matchingHandlers v key ch md kbs).isEmpty) = true ↔
      ∃ kb ∈ kbs, kb.handler.isSome = true ∧
        kb.matchKeypress key ch md = true ∧ kb.matchView v = true := by
  induction kbs with
  | nil => simp [matchingHandlers]
  | cons kb rest ih =>
      cases hh : kb.handler with
      | none =>
          simp only [matchingHandlers, List.filter_cons] at ih ⊢
          simp [hh, ih]
      | some h =>
          by_cases hk : kb.matchKeypress key ch md = true <;>
            by_cases hv2 : kb.matchView v = true <;>
            · simp only [matchingHandlers, List.filter_cons] at ih ⊢
              simp [hh, hk, hv2, List.filterMap_cons, ih]

/-- C5: keybinding dispatch is exhaustive and ordered.  The invocation
trace of `execKeybindings` is exactly `runUntilErr` applied to the
handlers of the matching bindings in registration order: with no
failure, every matching binding's handler runs, in order — two bindings
with identical scope, trigger and modifier both contribute their
handlers — and at the first handler failure the dispatch stops (the
trace ends there, later matches are not run) and the failure is
returned. -/
theorem execKeybindings_runs_all_matches (g : Gui) (run : Nat → Option Err)
    (v : Option String) (key ch md : Nat) :
    g.execKeybindings run v key ch md =
      ((runUntilErr run (matchingHandlers v key ch md g.keybindings)).1,
       ((runUntilErr run (matchingHandlers v key ch md g.keybindings)).2.isNone &&
         !(matchingHandlers v key ch md g.keybindings).isEmpty),
       (runUntilErr run (matchingHandlers v key ch md g.keybindings)).2) := by
  rw [Gui.execKeybindings, execKBAux_eq]
  cases hre : (runUntilErr run (matchingHandlers v key ch md g.keybindings)).2 <;>
    simp [hre]

/-- C2 counterexample: the sole registered binding (global scope, rune
`q`) matches the key event, yet because its handler fails,
`execKeybindings` reports `matched = false` — refuting the claim that
`matched` is true exactly when a binding matched, independently of
handler errors. -/
theorem execKeybindings_matched_error_cex :
    Gui.execKeybindings guiKB (fun _ => some (Err.handlerFailure 7)) none 0 113 0 =
      ([0], false, some (Err.handlerFailure 7)) ∧
    kbGlobalQ ∈ guiKB.keybindings ∧
    (kbGlobalQ.matchKeypress 0 113 0 && kbGlobalQ.matchView none) = true :=
  ⟨rfl, by decide, by decide⟩

/-- C2 amended: `execKeybindings` reports `matched = true` exactly when
no handler failed and at least one registered binding with a non-nil
handler matched the event's (key-or-rune, modifier) and the target
view's scope; when a matching handler fails, the call reports
`matched = false` together with the error. -/
theorem execKeybindings_matched_iff (g : Gui) (run : Nat → Option Err)
    (v : Option String) (key ch md : Nat) :
    (g.execKeybindings run v key ch md).2.1 = true ↔
      ((g.execKeybindings run v key ch md).2.2 = none ∧
        ∃ kb ∈ g.keybindings, kb.handler.isSome = true ∧
          kb.matchKeypress key ch md = true ∧ kb.matchView v = true) := by
  rw [Gui.execKeybindings, execKBAux_eq]
  cases hre : (runUntilErr run (matchingHandlers v key ch md g.keybindings)).2 with
  | some e => simp
  | none =>
      simp only [Bool.false_or]
      simpa using matchingHandlers_ne_nil v key ch md g.keybindings
